import Mathlib

/-!
Verification of the Technical-Assessment repository against its specification.

Two code bases are modelled:

* the dashboard P&L utilities (`dashboard/lib/calculations.ts`, shallowly
  embedded over an extended-rational model of JavaScript numbers), and
* the phoenix data pipeline (whose Python implementation is documented in
  `DESIGN_DECISIONS.md`; components with code shown there are embedded from
  those snippets, the remaining orchestration is modelled from the spec).
-/

/- ## JavaScript number model

JavaScript numbers are IEEE-754 doubles.  We model them as exact rationals
extended with `nan` and the two infinities.  Finite arithmetic is exact
(in-range rounding is not modelled), but a product, difference or quotient
whose exact magnitude reaches `2^1024` — the double overflow threshold —
overflows to a signed infinity, as doubles do.  This captures exactly the
overflow and special-value behaviour the claims about `calculations.ts`
turn on. -/
inductive JSNum where
  | nan : JSNum
  | inf : JSNum
  | neginf : JSNum
  | fin (q : ℚ) : JSNum
deriving DecidableEq, Repr

namespace JSNum

/-- The double overflow threshold: finite doubles have magnitude below
`2^1024`; an exact result of magnitude at least `2^1024` rounds to an
infinity. -/
def ovf : ℚ := 2 ^ 1024

/-- JavaScript `isFinite` / the `isFinite(x)` guard of `calculations.ts`. -/
def isFinite : JSNum → Bool
  | fin _ => true
  | _ => false

/-- Unary minus on JavaScript numbers (`-NaN` is `NaN`). -/
def neg : JSNum → JSNum
  | nan => nan
  | inf => neginf
  | neginf => inf
  | fin q => fin (-q)

/-- `Math.abs`. -/
def jabs : JSNum → JSNum
  | nan => nan
  | inf => inf
  | neginf => inf
  | fin q => fin |q|

/-- JavaScript `x <= 0` (false on `NaN`). -/
def le0 : JSNum → Bool
  | nan => false
  | inf => false
  | neginf => true
  | fin q => decide (q ≤ 0)

/-- Double multiplication: exact on in-range finite operands, overflowing to a
signed infinity at magnitude `2^1024`; `0 * ±∞ = NaN`. -/
def mul : JSNum → JSNum → JSNum
  | nan, _ => nan
  | _, nan => nan
  | inf, inf => inf
  | inf, neginf => neginf
  | neginf, inf => neginf
  | neginf, neginf => inf
  | inf, fin q => if 0 < q then inf else if q < 0 then neginf else nan
  | fin q, inf => if 0 < q then inf else if q < 0 then neginf else nan
  | neginf, fin q => if 0 < q then neginf else if q < 0 then inf else nan
  | fin q, neginf => if 0 < q then neginf else if q < 0 then inf else nan
  | fin a, fin b =>
      if ovf ≤ a * b then inf
      else if a * b ≤ -ovf then neginf
      else fin (a * b)

/-- Double subtraction: exact on in-range finite operands, overflowing to a
signed infinity at magnitude `2^1024`; `∞ - ∞ = NaN`. -/
def sub : JSNum → JSNum → JSNum
  | nan, _ => nan
  | _, nan => nan
  | inf, inf => nan
  | neginf, neginf => nan
  | inf, _ => inf
  | neginf, _ => neginf
  | fin _, inf => neginf
  | fin _, neginf => inf
  | fin a, fin b =>
      if ovf ≤ a - b then inf
      else if a - b ≤ -ovf then neginf
      else fin (a - b)

/-- Double division: exact on in-range finite operands, overflowing at
magnitude `2^1024`; `x / ±∞ = 0` for finite `x`, `±∞ / ±∞ = NaN`,
`0 / 0 = NaN`, and division of a nonzero finite number by zero gives a
signed infinity (the model has a single unsigned zero). -/
def div : JSNum → JSNum → JSNum
  | nan, _ => nan
  | _, nan => nan
  | inf, inf => nan
  | inf, neginf => nan
  | neginf, inf => nan
  | neginf, neginf => nan
  | inf, fin q => if 0 ≤ q then inf else neginf
  | neginf, fin q => if 0 ≤ q then neginf else inf
  | fin _, inf => fin 0
  | fin _, neginf => fin 0
  | fin a, fin b =>
      if b = 0 then (if 0 < a then inf else if a < 0 then neginf else nan)
      else if ovf ≤ a / b then inf
      else if a / b ≤ -ovf then neginf
      else fin (a / b)

/-- Rounding of a rational to 2 decimal places the way
`parseFloat(x.toFixed(2))` does: ECMAScript `toFixed` handles a negative
number by negating, converting, and prefixing a minus sign, and for a
non-negative number picks the closest hundredth, ties towards the larger
numerator (round half up). -/
def round2Rat (q : ℚ) : ℚ :=
  if q < 0 then -(⌊(-q) * 100 + 1 / 2⌋ : ℚ) / 100
  else (⌊q * 100 + 1 / 2⌋ : ℚ) / 100

/-- `parseFloat(x.toFixed(2))`: `NaN` and the infinities round-trip through
the strings "NaN" / "Infinity" / "-Infinity" unchanged; a finite value is
rounded to 2 decimal places. -/
def toFixed2 : JSNum → JSNum
  | nan => nan
  | inf => inf
  | neginf => neginf
  | fin q => fin (round2Rat q)

end JSNum

/-- Position side, from `calculations.ts` (`type PositionSide = 'long' | 'short'`). -/
inductive PositionSide where
  | long : PositionSide
  | short : PositionSide
deriving DecidableEq, Repr

/-- P&L calculation result, from `calculations.ts` (`interface PnLResult`). -/
structure PnLResult where
  absolute : JSNum
  percentage : JSNum
  entryValue : JSNum
  currentValue : JSNum
deriving DecidableEq, Repr

/-- The all-zero result returned by every guard branch of
`calculatePnLWithSide`. -/
def zeroPnLResult : PnLResult :=
  { absolute := .fin 0, percentage := .fin 0, entryValue := .fin 0, currentValue := .fin 0 }

/-- Embedding of `calculatePnLWithSide` from `dashboard/lib/calculations.ts`,
mirroring the source line by line: the `isFinite` guard, the
`entryPrice <= 0 || currentPrice <= 0 || leverage <= 0` guard, the
`size === 0` guard, then the entry/current values, the side-dependent
absolute P&L, the percentage relative to entry value, and the
`parseFloat(x.toFixed(2))` rounding of all four outputs. -/
def calculatePnLWithSide (entryPrice currentPrice size : JSNum)
    (side : PositionSide) (leverage : JSNum) : PnLResult :=
  if ¬(entryPrice.isFinite && currentPrice.isFinite && size.isFinite && leverage.isFinite) then
    zeroPnLResult
  else if entryPrice.le0 || currentPrice.le0 || leverage.le0 then
    zeroPnLResult
  else if size = .fin 0 then
    zeroPnLResult
  else
    let absSize := size.jabs
    let entryValue := entryPrice.mul absSize
    let currentValue := currentPrice.mul absSize
    let pnlAbsolute :=
      match side with
      | .long => ((currentPrice.sub entryPrice).mul absSize).mul leverage
      | .short => ((entryPrice.sub currentPrice).mul absSize).mul leverage
    let pnlPercentage := (pnlAbsolute.div entryValue).mul (.fin 100)
    { absolute := pnlAbsolute.toFixed2
      percentage := pnlPercentage.toFixed2
      entryValue := entryValue.toFixed2
      currentValue := currentValue.toFixed2 }

/- ## Phoenix pipeline: price enrichment and volume -/

/-- Embedding of the stablecoin-aware volume logic shown in
`DESIGN_DECISIONS.md` §5 ("Stablecoin-Aware Volume Calculation"); the
amounts are the decimal-normalized amounts and the prices the resolved USD
unit prices. -/
def usdVolume (token0_is_stable token1_is_stable : Bool)
    (amount0 price0 amount1 price1 : ℚ) : ℚ :=
  if token0_is_stable && token1_is_stable then
    |amount0 * price0|
  else if token0_is_stable then
    |amount0 * price0|
  else if token1_is_stable then
    |amount1 * price1|
  else
    |amount0 * price0| + |amount1 * price1|

/-- The stablecoin-aware reference definition, following the words of the
claim/spec §4.3: both stable → one side; exactly one stable → the stable
token's side; neither stable → sum of both sides. -/
def refUsdVolume (stable0 stable1 : Bool) (amount0 price0 amount1 price1 : ℚ) : ℚ :=
  if stable0 && stable1 then
    |amount0 * price0|
  else if stable0 && !stable1 then
    |amount0 * price0|
  else if stable1 && !stable0 then
    |amount1 * price1|
  else
    |amount0 * price0| + |amount1 * price1|

/-- Embedding of the static decimals table shown in `DESIGN_DECISIONS.md`
§6 ("Token Decimal Handling"): USDC 6, USDT 6, WBTC 8, WETH 18. -/
def TOKEN_DECIMALS : List (String × ℕ) :=
  [("0xa0b86991c6218b36c1d19d4a2e9eb0ce3606eb48", 6),
   ("0xdac17f958d2ee523a2206206994597c13d831ec7", 6),
   ("0x2260fac5e5542a773aa44fbcfedf7c193bc2c599", 8),
   ("0xc02aaa39b223fe8d0a0e5c4f27ead9083c756cc2", 18)]

/-- `TOKEN_DECIMALS.get(token_address, 18)`: the lookup defaults to 18
decimals for unlisted tokens (`DESIGN_DECISIONS.md` §6). -/
def decimalsFor (tokenAddress : String) : ℕ :=
  ((TOKEN_DECIMALS.find? (fun p => p.1 = tokenAddress)).map (fun p => p.2)).getD 18

/-- Modelled from the spec: the static stablecoin flag table ("Requires
maintaining stablecoin list", `DESIGN_DECISIONS.md` §5); the listed
stablecoins are the USDC and USDT addresses of the decimals table. -/
def STABLECOINS : List String :=
  ["0xa0b86991c6218b36c1d19d4a2e9eb0ce3606eb48",
   "0xdac17f958d2ee523a2206206994597c13d831ec7"]

/-- Whether a token address is flagged stable. -/
def isStable (tokenAddress : String) : Bool :=
  STABLECOINS.contains tokenAddress

/-- Decimal normalization (`DESIGN_DECISIONS.md` §6):
`amount_normalized = amount_raw / (10 ** decimals)`. -/
def normalizeAmount (amountRaw : ℤ) (decimals : ℕ) : ℚ :=
  (amountRaw : ℚ) / 10 ^ decimals

/-- One validated on-chain swap event (spec §3 SwapRecord): signed raw
amounts, block number as the ordering key, timestamp informational only. -/
structure SwapRecord where
  txHash : String
  blockNumber : ℕ
  timestamp : ℕ
  token0Address : String
  token1Address : String
  amount0Raw : ℤ
  amount1Raw : ℤ
deriving DecidableEq, Repr

/-- Deterministic order-independent pair identifier (spec §3: sorted
concatenation of the two token addresses). -/
def pairKeyOf (t0 t1 : String) : String :=
  if t0 ≤ t1 then t0 ++ "-" ++ t1 else t1 ++ "-" ++ t0

/-- SwapRecord plus resolved prices, computed USD volume and pair key
(spec §3 EnrichedSwap).  A swap with an unresolved price never becomes an
`EnrichedSwap` (its null `usdVolume` is represented by `enrichSwap`
returning `none`). -/
structure EnrichedSwap where
  swap : SwapRecord
  priceUSD0 : ℚ
  priceUSD1 : ℚ
  usdVolume : ℚ
  pairKey : String
deriving DecidableEq, Repr

/-- Modelled from the spec: the enrichment of a single swap (spec §4.3 and
§4.6 `PriceEnrichment`, `DESIGN_DECISIONS.md` pipeline flow step 5 "Skip
swaps with missing prices").  Both token prices must be resolved by the
price mapping; otherwise the swap yields no `EnrichedSwap` (null
`usdVolume`). -/
def enrichSwap (prices : String → Option ℚ) (s : SwapRecord) : Option EnrichedSwap :=
  match prices s.token0Address, prices s.token1Address with
  | some p0, some p1 =>
      some { swap := s
             priceUSD0 := p0
             priceUSD1 := p1
             usdVolume := usdVolume (isStable s.token0Address) (isStable s.token1Address)
               (normalizeAmount s.amount0Raw (decimalsFor s.token0Address)) p0
               (normalizeAmount s.amount1Raw (decimalsFor s.token1Address)) p1
             pairKey := pairKeyOf s.token0Address s.token1Address }
  | _, _ => none

/-- Modelled from the spec: enrichment of a batch — swaps with an
unresolved price are excluded from the output and counted as skipped,
never raised as an error (spec §4.6 `PriceEnrichment`). -/
def enrichAll (prices : String → Option ℚ) (batch : List SwapRecord) :
    List EnrichedSwap × ℕ :=
  (batch.filterMap (enrichSwap prices),
   batch.countP (fun s => (enrichSwap prices s).isNone))

/-- Aggregate row per trading pair (spec §3 PairSummary). -/
structure PairSummary where
  pairKey : String
  count : ℕ
  totalUSD : ℚ
  avgUSD : ℚ
deriving DecidableEq, Repr

/-- Modelled from the spec: the unsorted PairSummary rows — group the
enriched swaps by `pairKey`, one row per distinct key with count, total and
average USD volume (spec §4.6 `Aggregating`). -/
def summaryRows (enriched : List EnrichedSwap) : List PairSummary :=
  ((enriched.map (fun e => e.pairKey)).eraseDups).map (fun k =>
    let group := enriched.filter (fun e => e.pairKey = k)
    let total := (group.map (fun e => e.usdVolume)).sum
    { pairKey := k
      count := group.length
      totalUSD := total
      avgUSD := total / (group.length : ℚ) })

/-- Modelled from the spec: deterministic ordering of the summary —
`totalUSD` descending, ties broken by `pairKey` ascending (spec §4.6
`Aggregating`). -/
def aggregate (enriched : List EnrichedSwap) : List PairSummary :=
  (summaryRows enriched).mergeSort (fun a b =>
    b.totalUSD < a.totalUSD || (a.totalUSD = b.totalUSD && a.pairKey ≤ b.pairKey))

/- ## Phoenix pipeline: orchestrator -/

/-- Durable checkpoint (spec §3): the highest fully processed block. -/
structure Checkpoint where
  lastProcessedBlock : ℕ
deriving DecidableEq, Repr

/-- Outcome of each of the two output writes of the `Writing` stage
(spec §6: `writeRecords`, `writeSummary`; each fully succeeds or raises). -/
structure SinkBehavior where
  writeRecordsOk : Bool
  writeSummaryOk : Bool
deriving DecidableEq, Repr

/-- Result of one orchestrator run: the persisted checkpoint after the run,
whether the run aborted, which outputs were durably written, the written
outputs, and the run statistics. -/
structure RunResult where
  checkpoint : Checkpoint
  aborted : Bool
  wroteRecords : Bool
  wroteSummary : Bool
  enrichedOut : List EnrichedSwap
  summaryOut : List PairSummary
  processed : ℕ
  skipped : ℕ
deriving Repr

/-- Maximum blockNumber observed in a batch. -/
def maxBlock (batch : List SwapRecord) : ℕ :=
  (batch.map (fun s => s.blockNumber)).foldr max 0

/-- Modelled from the spec: the orchestrator state machine of §4.6
(`Fetching → Filtering → TokenCollection → PriceEnrichment → Aggregating →
Writing → CheckpointUpdate → Done`, with `Aborted` on a write failure).
`fetched` is the already-flattened fetch result (spec §6); filtering
discards records with `blockNumber <= checkpoint.lastProcessedBlock`; an
empty filtered batch short-circuits to `Done` touching nothing; the
checkpoint is set to the maximum block of the processed batch only after
both output writes succeeded, and a failed or partial write aborts the run
leaving the persisted checkpoint at its prior value. -/
def runPipeline (prices : String → Option ℚ) (sink : SinkBehavior)
    (cp : Checkpoint) (fetched : List SwapRecord) : RunResult :=
  let newSwaps := fetched.filter (fun s => cp.lastProcessedBlock < s.blockNumber)
  if newSwaps.isEmpty then
    { checkpoint := cp, aborted := false, wroteRecords := false, wroteSummary := false,
      enrichedOut := [], summaryOut := [], processed := 0, skipped := 0 }
  else
    let er := enrichAll prices newSwaps
    let summaries := aggregate er.1
    if sink.writeRecordsOk then
      if sink.writeSummaryOk then
        { checkpoint := { lastProcessedBlock := maxBlock newSwaps }, aborted := false,
          wroteRecords := true, wroteSummary := true,
          enrichedOut := er.1, summaryOut := summaries,
          processed := newSwaps.length, skipped := er.2 }
      else
        { checkpoint := cp, aborted := true, wroteRecords := true, wroteSummary := false,
          enrichedOut := er.1, summaryOut := [],
          processed := newSwaps.length, skipped := er.2 }
    else
      { checkpoint := cp, aborted := true, wroteRecords := false, wroteSummary := false,
        enrichedOut := [], summaryOut := [],
        processed := newSwaps.length, skipped := er.2 }

/- ## Phoenix pipeline: normalizer / validator -/

/-- A raw fetched swap payload before validation (spec §4.4): every field
may be missing, numeric fields arrive as strings. -/
structure RawSwap where
  txHash : Option String
  blockNumber : Option String
  timestamp : Option String
  token0Address : Option String
  token1Address : Option String
  amount0Raw : Option String
  amount1Raw : Option String
deriving DecidableEq, Repr

/-- Parse a list of decimal digit characters as a natural number (none on
an empty or non-digit input). -/
def parseNatDigits (cs : List Char) : Option ℕ :=
  if cs.isEmpty then none
  else if cs.all (fun c => c.isDigit) then
    some (cs.foldl (fun n c => 10 * n + (c.toNat - 48)) 0)
  else none

/-- Parse a string of decimal digits as a natural number. -/
def parseNat? (s : String) : Option ℕ :=
  parseNatDigits s.toList

/-- Parse a signed decimal integer, sign preserved: an optional leading
minus sign followed by digits. -/
def parseInt? (s : String) : Option ℤ :=
  match s.toList with
  | '-' :: cs => (parseNatDigits cs).map (fun n => -(n : ℤ))
  | cs => (parseNatDigits cs).map (fun n => (n : ℤ))

/-- Modelled from the spec: validation of one raw payload (spec §4.4):
txHash present; blockNumber parses as a non-negative integer; both amount
fields parse as integers with sign preserved; both token addresses present
and non-empty.  The timestamp is informational only (spec §3) and is
carried through unvalidated, defaulting to 0. -/
def validateRaw (r : RawSwap) : Option SwapRecord :=
  match r.txHash, r.blockNumber, r.token0Address, r.token1Address,
        r.amount0Raw, r.amount1Raw with
  | some tx, some bn, some t0, some t1, some a0, some a1 =>
      match parseNat? bn, parseInt? a0, parseInt? a1 with
      | some bnv, some a0v, some a1v =>
          if t0.isEmpty || t1.isEmpty then none
          else
            some { txHash := tx, blockNumber := bnv,
                   timestamp := ((r.timestamp.bind parseNat?).getD 0),
                   token0Address := t0, token1Address := t1,
                   amount0Raw := a0v, amount1Raw := a1v }
      | _, _, _ => none
  | _, _, _, _, _, _ => none

/-- Modelled from the spec: the SwapNormalizer (spec §4.4) — malformed
payloads are dropped, each drop incrementing the rejected counter; a
payload whose txHash duplicates an already-kept record collapses to the
first occurrence (not counted as rejected); the normalizer never raises. -/
def normalizeBatch (raws : List RawSwap) : List SwapRecord × ℕ :=
  raws.foldl
    (fun acc r =>
      match validateRaw r with
      | some rec =>
          if acc.1.any (fun k => k.txHash = rec.txHash) then acc
          else (acc.1 ++ [rec], acc.2)
      | none => (acc.1, acc.2 + 1))
    ([], 0)

/- ## Phoenix pipeline: rate limiter -/

/-- Embedding of class `RateLimiter` from `DESIGN_DECISIONS.md` §2
("Rate Limiting with Sliding Window"): `max_requests`, `window_seconds`
and the deque of recorded request timestamps (time in seconds as exact
rationals). -/
structure RateLimiter where
  max_requests : ℕ
  window_seconds : ℚ
  requests : List ℚ
deriving DecidableEq, Repr

/-- Embedding of `RateLimiter.acquire`, line by line from the source
snippet: `now = time.time()`; pop timestamps with
`requests[0] < now - window_seconds` from the left; if
`len(requests) >= max_requests`, sleep
`(requests[0] + window_seconds) - now`; finally `requests.append(now)` —
the source appends the `now` captured before the sleep.  Returns the new
state together with the admission time `now + wait` at which the call
proceeds. -/
def RateLimiter.acquire (rl : RateLimiter) (now : ℚ) : RateLimiter × ℚ :=
  let remaining := rl.requests.dropWhile (fun t => t < now - rl.window_seconds)
  let wait :=
    if rl.max_requests ≤ remaining.length then
      match remaining.head? with
      | some oldest => (oldest + rl.window_seconds) - now
      | none => 0
    else 0
  ({ rl with requests := remaining ++ [now] }, now + wait)

/-- Run a sequence of `acquire` calls at the given wall-clock call times,
threading the limiter state; returns the admission times in order and the
final state.  (The caller of a blocking `acquire` cannot issue its next
call before being admitted, a constraint stated as a hypothesis where it
matters.) -/
def RateLimiter.run (rl : RateLimiter) : List ℚ → List ℚ × RateLimiter
  | [] => ([], rl)
  | now :: rest =>
      let step := rl.acquire now
      let tail := step.1.run rest
      (step.2 :: tail.1, tail.2)

/- ## Phoenix pipeline: retry policy -/

/-- The errors a wrapped network operation can raise, after the taxonomy of
spec §7 and the httpx exception classes used in the `DESIGN_DECISIONS.md`
§3 retry snippet: `requestError` is `httpx.RequestError` (network I/O
error or timeout), `httpStatusError s` is the `httpx.HTTPStatusError`
raised by `response.raise_for_status()` for a response with HTTP status
`s` (any 4xx or 5xx), and `malformedInput` is a non-httpx decoding
error. -/
inductive PipelineError where
  | requestError : PipelineError
  | httpStatusError (status : ℕ) : PipelineError
  | malformedInput : PipelineError
deriving DecidableEq, Repr

/-- Embedding of the retry predicate from `DESIGN_DECISIONS.md` §3:
`retry_if_exception_type((httpx.RequestError, httpx.HTTPStatusError))` —
an exception is retried exactly when it is an instance of one of those two
classes; `httpx.HTTPStatusError` covers every 4xx as well as every 5xx
status. -/
def retryIfExceptionType : PipelineError → Bool
  | .requestError => true
  | .httpStatusError _ => true
  | .malformedInput => false

/-- Retry driver for an operation `op` (attempt index ↦ outcome) under
`stop_after_attempt`: `remaining` attempts are left, `made` attempts have
been made.  On success the result is returned; on a failure matching the
retry predicate with attempts remaining the operation is retried;
otherwise the last error is surfaced.  Returns the outcome and the total
number of attempts made. -/
def retryGo {α : Type} (pred : PipelineError → Bool)
    (op : ℕ → Except PipelineError α) :
    ℕ → ℕ → Except PipelineError α × ℕ
  | 0, made => (.error .malformedInput, made)
  | remaining + 1, made =>
      match op made with
      | .ok a => (.ok a, made + 1)
      | .error e =>
          if pred e && remaining != 0 then
            retryGo pred op remaining (made + 1)
          else (.error e, made + 1)

/-- Embedding of the `@retry(stop=stop_after_attempt(maxAttempts), ...)`
wrapper: at most `maxAttempts` attempts, retrying exactly the errors
matched by `retry_if_exception_type`. -/
def retryCall {α : Type} (maxAttempts : ℕ)
    (op : ℕ → Except PipelineError α) : Except PipelineError α × ℕ :=
  retryGo retryIfExceptionType op maxAttempts 0

/-- Modelled from the spec: the backoff delay of the RetryPolicy (spec
§4.2) — the sleep before the retry with index `attemptIndex` is
`min(baseDelay * 2^(attemptIndex), maxDelay)` plus the drawn jitter. -/
def backoffDelay (baseDelay maxDelay : ℚ) (attemptIndex : ℕ) (jitter : ℚ) : ℚ :=
  min (baseDelay * 2 ^ attemptIndex) maxDelay + jitter

/-- The spec's constraint on the drawn jitter (spec §4.2): a random value
in `[0, delay * 0.25]`, where `delay` is the capped exponential delay the
jitter is added to. -/
def jitterInRange (baseDelay maxDelay : ℚ) (attemptIndex : ℕ) (jitter : ℚ) : Prop :=
  0 ≤ jitter ∧ jitter ≤ min (baseDelay * 2 ^ attemptIndex) maxDelay * (1 / 4)

/-- Modelled from the spec: one run of the RetryPolicy (spec §4.2) against
an operation, recording the backoff sleeps.  `jitters i` is the jitter
drawn before the sleep with attempt index `i`; on a retryable failure with
attempts remaining the policy sleeps `backoffDelay` and retries; a
non-retryable failure or exhaustion surfaces the last error.  Returns the
outcome, the number of attempts made, and the list of sleeps performed. -/
def retryPolicyGo {α : Type} (baseDelay maxDelay : ℚ) (jitters : ℕ → ℚ)
    (retryable : PipelineError → Bool) (op : ℕ → Except PipelineError α) :
    ℕ → ℕ → Except PipelineError α × ℕ × List ℚ
  | 0, made => (.error .malformedInput, made, [])
  | remaining + 1, made =>
      match op made with
      | .ok a => (.ok a, made + 1, [])
      | .error e =>
          if retryable e && remaining != 0 then
            let rest := retryPolicyGo baseDelay maxDelay jitters retryable op remaining (made + 1)
            (rest.1, rest.2.1, backoffDelay baseDelay maxDelay made (jitters made) :: rest.2.2)
          else (.error e, made + 1, [])

/-- Modelled from the spec: the RetryPolicy (spec §4.2) with its
parameters, run from a fresh state. -/
def retryPolicyRun {α : Type} (maxAttempts : ℕ) (baseDelay maxDelay : ℚ)
    (jitters : ℕ → ℚ) (retryable : PipelineError → Bool)
    (op : ℕ → Except PipelineError α) : Except PipelineError α × ℕ × List ℚ :=
  retryPolicyGo baseDelay maxDelay jitters retryable op maxAttempts 0

/- ## Concrete data used by witnesses and counterexamples -/

/-- A swap of 1 unit of a non-stable 18-decimals token for 2000 units of
USDC (6 decimals, flagged stable). -/
def c1Swap : SwapRecord :=
  { txHash := "0xab", blockNumber := 100, timestamp := 0,
    token0Address := "0xaaa0000000000000000000000000000000000000",
    token1Address := "0xa0b86991c6218b36c1d19d4a2e9eb0ce3606eb48",
    amount0Raw := 10 ^ 18, amount1Raw := -(2000 * 10 ^ 6) }

/-- Resolved prices for `c1Swap`: the non-stable token at 2000 USD, USDC
at 1 USD. -/
def c1Prices : String → Option ℚ := fun a =>
  if a = "0xaaa0000000000000000000000000000000000000" then some 2000
  else if a = "0xa0b86991c6218b36c1d19d4a2e9eb0ce3606eb48" then some 1
  else none

/-- The enrichment of `c1Swap` under `c1Prices`. -/
def c1Enriched : EnrichedSwap :=
  { swap := c1Swap, priceUSD0 := 2000, priceUSD1 := 1, usdVolume := 2000,
    pairKey := pairKeyOf c1Swap.token0Address c1Swap.token1Address }

/-- A price mapping that resolves no token. -/
def wNoPrices : String → Option ℚ := fun _ => none

/-- A small valid swap record at block 5. -/
def wSwapA : SwapRecord :=
  { txHash := "0xw1", blockNumber := 5, timestamp := 0,
    token0Address := "0xt0", token1Address := "0xt1",
    amount0Raw := 1, amount1Raw := -1 }

/-- A raw payload that is fully well-formed except that its `txHash` is
missing; its amounts (one of them negative) parse and its addresses are
present and non-empty. -/
def wRawNoTx : RawSwap :=
  { txHash := none, blockNumber := some "7", timestamp := some "1",
    token0Address := some "0xt0", token1Address := some "0xt1",
    amount0Raw := some "25", amount1Raw := some "-40" }

/-- A fully well-formed raw payload with a negative `amount1`. -/
def wRawGood : RawSwap :=
  { txHash := some "0xg1", blockNumber := some "7", timestamp := some "1",
    token0Address := some "0xt0", token1Address := some "0xt1",
    amount0Raw := some "25", amount1Raw := some "-40" }

/- ## Theorems -/

/-- The embedded volume logic agrees with the claim's reference definition
for every combination of stable flags. -/
theorem usdVolume_eq_refUsdVolume (s0 s1 : Bool) (a0 p0 a1 p1 : ℚ) :
    usdVolume s0 s1 a0 p0 a1 p1 = refUsdVolume s0 s1 a0 p0 a1 p1 := by
  cases s0 <;> cases s1 <;> simp [usdVolume, refUsdVolume]

/-- C1: for every swap whose two token prices are resolved, the computed
`usdVolume` equals the stablecoin-aware reference definition on the
decimal-normalized amounts (both stable → token0 side; exactly one stable
→ the stable token's side; neither → sum of both sides); moreover a
1-unit-at-2000 vs 2000-stable-units-at-1 swap yields exactly 2000, a
both-stable 1000/999-at-1 swap yields exactly 1000, and a non-stable
1-at-2000 vs 5-at-10 swap yields exactly 2050. -/
theorem C1_usdVolume_stablecoin_aware :
    (∀ (prices : String → Option ℚ) (s : SwapRecord) (e : EnrichedSwap),
        enrichSwap prices s = some e →
        e.usdVolume = refUsdVolume (isStable s.token0Address) (isStable s.token1Address)
          (normalizeAmount s.amount0Raw (decimalsFor s.token0Address)) e.priceUSD0
          (normalizeAmount s.amount1Raw (decimalsFor s.token1Address)) e.priceUSD1)
    ∧ usdVolume false true 1 2000 2000 1 = 2000
    ∧ usdVolume true true 1000 1 999 1 = 1000
    ∧ usdVolume false false 1 2000 5 10 = 2050 := by
  refine ⟨?_, by norm_num [usdVolume], by norm_num [usdVolume], by norm_num [usdVolume]⟩
  intro prices s e h
  cases hp0 : prices s.token0Address <;> cases hp1 : prices s.token1Address <;>
    simp [enrichSwap, hp0, hp1] at h
  subst h
  simp [usdVolume_eq_refUsdVolume]

/-- C1 witness: the general part of C1 applied to the concrete enrichment
of `c1Swap` under `c1Prices`. -/
theorem C1_usdVolume_stablecoin_aware_witness :
    c1Enriched.usdVolume = refUsdVolume (isStable c1Swap.token0Address)
      (isStable c1Swap.token1Address)
      (normalizeAmount c1Swap.amount0Raw (decimalsFor c1Swap.token0Address))
      c1Enriched.priceUSD0
      (normalizeAmount c1Swap.amount1Raw (decimalsFor c1Swap.token1Address))
      c1Enriched.priceUSD1 := by
  refine C1_usdVolume_stablecoin_aware.1 c1Prices c1Swap c1Enriched ?_
  have h0 : isStable "0xaaa0000000000000000000000000000000000000" = false := by decide
  have h1 : isStable "0xa0b86991c6218b36c1d19d4a2e9eb0ce3606eb48" = true := by decide
  have h2 : decimalsFor "0xaaa0000000000000000000000000000000000000" = 18 := by decide
  have h3 : decimalsFor "0xa0b86991c6218b36c1d19d4a2e9eb0ce3606eb48" = 6 := by decide
  have h4 : c1Prices "0xaaa0000000000000000000000000000000000000" = some 2000 := rfl
  have h5 : c1Prices "0xa0b86991c6218b36c1d19d4a2e9eb0ce3606eb48" = some 1 := rfl
  simp [enrichSwap, c1Swap, c1Enriched, h4, h5, h0, h1, h2, h3, normalizeAmount, usdVolume]
  norm_num

/-- Every row of the aggregated summary takes its count and total from the
enriched swaps with its pair key, and from nothing else. -/
theorem aggregate_row_from_enriched (es : List EnrichedSwap) (ps : PairSummary)
    (h : ps ∈ aggregate es) :
    ps.count = (es.filter (fun e => e.pairKey = ps.pairKey)).length ∧
    ps.totalUSD = ((es.filter (fun e => e.pairKey = ps.pairKey)).map
      (fun e => e.usdVolume)).sum := by
  rw [aggregate, List.mem_mergeSort] at h
  simp only [summaryRows, List.mem_map] at h
  obtain ⟨k, _, rfl⟩ := h
  exact ⟨rfl, rfl⟩

/-- C2: a swap with an unresolved token price yields no `EnrichedSwap`
(null `usdVolume`, represented by `none` — never zero); every swap in the
`EnrichedSwap` output has both prices resolved; every `PairSummary` row is
computed exclusively from the emitted enriched swaps; a price-missing swap
increments the skipped counter by exactly one; and a price miss never
aborts the run. -/
theorem C2_skip_on_unresolved_price :
    (∀ (prices : String → Option ℚ) (s : SwapRecord),
        prices s.token0Address = none ∨ prices s.token1Address = none →
        enrichSwap prices s = none)
    ∧ (∀ (prices : String → Option ℚ) (sink : SinkBehavior) (cp : Checkpoint)
          (fetched : List SwapRecord),
        ∀ e ∈ (runPipeline prices sink cp fetched).enrichedOut,
          (prices e.swap.token0Address).isSome ∧ (prices e.swap.token1Address).isSome)
    ∧ (∀ (prices : String → Option ℚ) (sink : SinkBehavior) (cp : Checkpoint)
          (fetched : List SwapRecord),
        ∀ ps ∈ (runPipeline prices sink cp fetched).summaryOut,
          ps.count = ((runPipeline prices sink cp fetched).enrichedOut.filter
            (fun e => e.pairKey = ps.pairKey)).length ∧
          ps.totalUSD = (((runPipeline prices sink cp fetched).enrichedOut.filter
            (fun e => e.pairKey = ps.pairKey)).map (fun e => e.usdVolume)).sum)
    ∧ (∀ (prices : String → Option ℚ) (l1 l2 : List SwapRecord) (s : SwapRecord),
        enrichSwap prices s = none →
        (enrichAll prices (l1 ++ s :: l2)).2 = (enrichAll prices (l1 ++ l2)).2 + 1)
    ∧ (∀ (prices : String → Option ℚ) (cp : Checkpoint) (fetched : List SwapRecord),
        (runPipeline prices ⟨true, true⟩ cp fetched).aborted = false) := by
  have hmem : ∀ (prices : String → Option ℚ) (batch : List SwapRecord),
      ∀ e ∈ (enrichAll prices batch).1,
        (prices e.swap.token0Address).isSome ∧ (prices e.swap.token1Address).isSome := by
    intro prices batch e he
    simp only [enrichAll, List.mem_filterMap] at he
    obtain ⟨s, _, hs⟩ := he
    cases hp0 : prices s.token0Address <;> cases hp1 : prices s.token1Address <;>
      simp [enrichSwap, hp0, hp1] at hs
    subst hs
    simp [hp0, hp1]
  refine ⟨?_, ?_, ?_, ?_, ?_⟩
  · intro prices s h
    rcases h with h | h
    · simp [enrichSwap, h]
    · cases hp0 : prices s.token0Address <;> simp [enrichSwap, hp0, h]
  · intro prices sink cp fetched e he
    by_cases hE : (fetched.filter (fun s => cp.lastProcessedBlock < s.blockNumber)).isEmpty <;>
      by_cases hR : sink.writeRecordsOk <;> by_cases hS : sink.writeSummaryOk <;>
        simp [runPipeline, hE, hR, hS] at he
    all_goals exact hmem _ _ e he
  · intro prices sink cp fetched ps hps
    by_cases hE : (fetched.filter (fun s => cp.lastProcessedBlock < s.blockNumber)).isEmpty <;>
      by_cases hR : sink.writeRecordsOk <;> by_cases hS : sink.writeSummaryOk <;>
        simp [runPipeline, hE, hR, hS] at hps ⊢
    all_goals exact aggregate_row_from_enriched _ _ hps
  · intro prices l1 l2 s h
    simp [enrichAll, List.countP_append, List.countP_cons, h]
    omega
  · intro prices cp fetched
    by_cases hE : (fetched.filter (fun s => cp.lastProcessedBlock < s.blockNumber)).isEmpty <;>
      simp [runPipeline, hE]

/-- C2 witness: the swap `wSwapA`, whose prices are unresolved under
`wNoPrices`, yields no enriched record and bumps the skipped counter of a
singleton batch by exactly one. -/
theorem C2_skip_on_unresolved_price_witness :
    enrichSwap wNoPrices wSwapA = none ∧
    (enrichAll wNoPrices ([] ++ wSwapA :: [])).2 = (enrichAll wNoPrices ([] ++ [])).2 + 1 := by
  constructor
  · exact C2_skip_on_unresolved_price.1 wNoPrices wSwapA (Or.inl rfl)
  · exact C2_skip_on_unresolved_price.2.2.2.1 wNoPrices [] [] wSwapA rfl

/-- Every record of a batch has block number at most `maxBlock` of the
batch. -/
theorem le_maxBlock_of_mem {batch : List SwapRecord} {s : SwapRecord}
    (h : s ∈ batch) : s.blockNumber ≤ maxBlock batch := by
  induction batch with
  | nil => cases h
  | cons x xs ih =>
      rcases List.mem_cons.mp h with rfl | h
      · exact le_max_left _ _
      · exact le_trans (ih h) (le_max_right _ _)

/-- C3: filtering discards exactly the fetched records with
`blockNumber <= checkpoint.lastProcessedBlock`; a run whose filtered batch
is empty short-circuits to Done leaving the checkpoint untouched and
writing nothing; and a second run against the identical fetch result
processes zero records, leaves the checkpoint unchanged, and writes no
outputs. -/
theorem C3_filter_idempotence :
    (∀ (cp : Checkpoint) (fetched : List SwapRecord) (s : SwapRecord),
        s ∈ fetched →
        (s ∈ fetched.filter (fun t => cp.lastProcessedBlock < t.blockNumber) ↔
          ¬(s.blockNumber ≤ cp.lastProcessedBlock)))
    ∧ (∀ (prices : String → Option ℚ) (sink : SinkBehavior) (cp : Checkpoint)
          (fetched : List SwapRecord),
        fetched.filter (fun t => cp.lastProcessedBlock < t.blockNumber) = [] →
        runPipeline prices sink cp fetched =
          { checkpoint := cp, aborted := false, wroteRecords := false,
            wroteSummary := false, enrichedOut := [], summaryOut := [],
            processed := 0, skipped := 0 })
    ∧ (∀ (prices : String → Option ℚ) (cp : Checkpoint) (fetched : List SwapRecord),
        (runPipeline prices ⟨true, true⟩
            (runPipeline prices ⟨true, true⟩ cp fetched).checkpoint fetched).processed = 0 ∧
        (runPipeline prices ⟨true, true⟩
            (runPipeline prices ⟨true, true⟩ cp fetched).checkpoint fetched).checkpoint =
          (runPipeline prices ⟨true, true⟩ cp fetched).checkpoint ∧
        (runPipeline prices ⟨true, true⟩
            (runPipeline prices ⟨true, true⟩ cp fetched).checkpoint fetched).wroteRecords = false ∧
        (runPipeline prices ⟨true, true⟩
            (runPipeline prices ⟨true, true⟩ cp fetched).checkpoint fetched).wroteSummary = false) := by
  have hshort : ∀ (prices : String → Option ℚ) (sink : SinkBehavior) (cp : Checkpoint)
      (fetched : List SwapRecord),
      fetched.filter (fun t => cp.lastProcessedBlock < t.blockNumber) = [] →
      runPipeline prices sink cp fetched =
        { checkpoint := cp, aborted := false, wroteRecords := false,
          wroteSummary := false, enrichedOut := [], summaryOut := [],
          processed := 0, skipped := 0 } := by
    intro prices sink cp fetched h
    simp [runPipeline, h]
  refine ⟨?_, hshort, ?_⟩
  · intro cp fetched s hs
    simp [List.mem_filter, hs]
  · intro prices cp fetched
    by_cases hE : (fetched.filter (fun t => cp.lastProcessedBlock < t.blockNumber)).isEmpty
    · -- first run is a no-op: second run sees the same checkpoint
      have h1 : runPipeline prices ⟨true, true⟩ cp fetched =
          { checkpoint := cp, aborted := false, wroteRecords := false,
            wroteSummary := false, enrichedOut := [], summaryOut := [],
            processed := 0, skipped := 0 } :=
        hshort _ _ _ _ (List.isEmpty_iff.mp hE)
      rw [h1]
      rw [hshort _ _ _ _ (List.isEmpty_iff.mp hE)]
      exact ⟨rfl, rfl, rfl, rfl⟩
    · -- first run advances the checkpoint to the maximum processed block
      have h1 : (runPipeline prices ⟨true, true⟩ cp fetched).checkpoint =
          { lastProcessedBlock :=
              maxBlock (fetched.filter (fun t => cp.lastProcessedBlock < t.blockNumber)) } := by
        simp [runPipeline, hE]
      have h2 : fetched.filter (fun t =>
          maxBlock (fetched.filter (fun u => cp.lastProcessedBlock < u.blockNumber)) <
            t.blockNumber) = [] := by
        rw [List.filter_eq_nil_iff]
        intro t ht
        simp only [decide_eq_true_eq, not_lt]
        by_cases hgt : cp.lastProcessedBlock < t.blockNumber
        · exact le_maxBlock_of_mem (List.mem_filter.mpr ⟨ht, by simpa using hgt⟩)
        · -- t was already below the old checkpoint, which the new one dominates
          have hne : fetched.filter (fun u => cp.lastProcessedBlock < u.blockNumber) ≠ [] := by
            simpa [List.isEmpty_iff] using hE
          obtain ⟨u, hu⟩ := List.exists_mem_of_ne_nil _ hne
          have hcp : cp.lastProcessedBlock < u.blockNumber := by
            have := (List.mem_filter.mp hu).2
            simpa using this
          have : t.blockNumber ≤ cp.lastProcessedBlock := le_of_not_lt hgt
          exact le_trans this (le_trans (le_of_lt hcp) (le_maxBlock_of_mem hu))
      have h3 := hshort prices ⟨true, true⟩
        ⟨maxBlock (fetched.filter (fun t => cp.lastProcessedBlock < t.blockNumber))⟩ fetched h2
      rw [h1, h3]
      exact ⟨rfl, rfl, rfl, rfl⟩

/-- C3 witness: the filter characterization at a concrete one-record fetch
against checkpoint 0, and the empty-filter short-circuit at checkpoint 5
(at or above the record's block). -/
theorem C3_filter_idempotence_witness :
    (wSwapA ∈ ([wSwapA] : List SwapRecord).filter
        (fun t => (Checkpoint.mk 0).lastProcessedBlock < t.blockNumber) ↔
      ¬(wSwapA.blockNumber ≤ (Checkpoint.mk 0).lastProcessedBlock)) ∧
    runPipeline wNoPrices ⟨true, true⟩ ⟨5⟩ [wSwapA] =
      { checkpoint := ⟨5⟩, aborted := false, wroteRecords := false,
        wroteSummary := false, enrichedOut := [], summaryOut := [],
        processed := 0, skipped := 0 } := by
  constructor
  · exact C3_filter_idempotence.1 ⟨0⟩ [wSwapA] wSwapA (by decide)
  · exact C3_filter_idempotence.2.1 wNoPrices ⟨true, true⟩ ⟨5⟩ [wSwapA] (by decide)

/-- C4: if either output write fails — including a partial write where the
records were written but the summary write raised — the run aborts with the
persisted checkpoint equal to its value before the run; conversely the
checkpoint only ever moves when both writes fully succeeded, and then to
the maximum block number of the processed batch. -/
theorem C4_checkpoint_write_ordering :
    (∀ (prices : String → Option ℚ) (sink : SinkBehavior) (cp : Checkpoint)
        (fetched : List SwapRecord),
        ¬(sink.writeRecordsOk = true ∧ sink.writeSummaryOk = true) →
        (runPipeline prices sink cp fetched).checkpoint = cp)
    ∧ (∀ (prices : String → Option ℚ) (sink : SinkBehavior) (cp : Checkpoint)
        (fetched : List SwapRecord),
        (runPipeline prices sink cp fetched).checkpoint ≠ cp →
        sink.writeRecordsOk = true ∧ sink.writeSummaryOk = true ∧
        (runPipeline prices sink cp fetched).aborted = false ∧
        (runPipeline prices sink cp fetched).wroteRecords = true ∧
        (runPipeline prices sink cp fetched).wroteSummary = true ∧
        (runPipeline prices sink cp fetched).checkpoint =
          { lastProcessedBlock :=
              maxBlock (fetched.filter (fun s => cp.lastProcessedBlock < s.blockNumber)) }) := by
  constructor
  · intro prices sink cp fetched h
    by_cases hE : (fetched.filter (fun s => cp.lastProcessedBlock < s.blockNumber)).isEmpty <;>
      by_cases hR : sink.writeRecordsOk <;> by_cases hS : sink.writeSummaryOk <;>
        simp [runPipeline, hE, hR, hS] at h ⊢
  · intro prices sink cp fetched h
    by_cases hE : (fetched.filter (fun s => cp.lastProcessedBlock < s.blockNumber)).isEmpty <;>
      by_cases hR : sink.writeRecordsOk <;> by_cases hS : sink.writeSummaryOk <;>
        simp [runPipeline, hE, hR, hS] at h ⊢

/-- C4 witness: a run over one new record whose summary write fails
(partial write) leaves the persisted checkpoint at its prior value 0. -/
theorem C4_checkpoint_write_ordering_witness :
    (runPipeline wNoPrices ⟨true, false⟩ ⟨0⟩ [wSwapA]).checkpoint = ⟨0⟩ :=
  C4_checkpoint_write_ordering.1 wNoPrices ⟨true, false⟩ ⟨0⟩ [wSwapA] (by simp)

/-- C5: evaluation of the embedded `RateLimiter.acquire` code.  The burst
part of the claim holds: with `max_requests = 10`, `window_seconds = 60`,
eleven acquisitions in rapid succession admit the first ten immediately
and block the eleventh until t = 60, a full window after the first call.
But the post-wait-append part fails: in a `max_requests = 1` run with
calls at t = 0, 1 and 60.5, the second call is admitted at t = 60 yet the
recorded timestamp sequence ends `[1, 60.5]` — the pre-sleep `now` values
— so the admissions at t = 60 and t = 61 are two admitted calls inside
the single trailing 60-second window (1, 61], exceeding `max_requests`. -/
theorem C5_rate_limiter_stale_timestamp :
    (RateLimiter.run ⟨10, 60, []⟩
        [0, 1/1000, 2/1000, 3/1000, 4/1000, 5/1000, 6/1000, 7/1000, 8/1000, 9/1000, 1/100]).1 =
      [0, 1/1000, 2/1000, 3/1000, 4/1000, 5/1000, 6/1000, 7/1000, 8/1000, 9/1000, 60]
    ∧ (RateLimiter.run ⟨1, 60, []⟩ [0, 1, 121/2]).1 = [0, 60, 61]
    ∧ (RateLimiter.run ⟨1, 60, []⟩ [0, 1, 121/2]).2.requests = [1, 121/2]
    ∧ ((RateLimiter.run ⟨1, 60, []⟩ [0, 1, 121/2]).1.filter
        (fun t => decide (1 < t) && decide (t ≤ 61))).length = 2 := by
  refine ⟨?_, ?_, ?_, ?_⟩ <;>
    norm_num [RateLimiter.run, RateLimiter.acquire, List.dropWhile, List.filter]

/-- C6: evaluation of the embedded retry configuration at a non-retryable
input.  `retry_if_exception_type((httpx.RequestError, httpx.HTTPStatusError))`
matches the `httpx.HTTPStatusError` raised for an HTTP 404 response, so an
operation that always fails with 404 is attempted all 3 times — the code
retries a 4xx, where the claim (and the README's "Retries on network
errors, timeouts, and HTTP 5xx errors") requires a single attempt.  A
malformed-input error, by contrast, is not matched and fails on the first
attempt. -/
theorem C6_http_4xx_is_retried :
    retryIfExceptionType (.httpStatusError 404) = true
    ∧ retryCall 3 (fun _ => (.error (.httpStatusError 404) : Except PipelineError Unit)) =
        (.error (.httpStatusError 404), 3)
    ∧ retryIfExceptionType .malformedInput = false
    ∧ retryCall 3 (fun _ => (.error .malformedInput : Except PipelineError Unit)) =
        (.error .malformedInput, 1) := by
  refine ⟨rfl, rfl, rfl, rfl⟩

/-- Against an operation that always fails retryably, the retry driver
makes every remaining attempt, surfaces the last error, and sleeps the
scheduled backoff before each retry. -/
theorem retryPolicyGo_always_fails (baseDelay maxDelay : ℚ) (jitters : ℕ → ℚ)
    (retryable : PipelineError → Bool) (errs : ℕ → PipelineError)
    (hr : ∀ i, retryable (errs i) = true) :
    ∀ n made, 1 ≤ n →
      retryPolicyGo (α := Unit) baseDelay maxDelay jitters retryable
          (fun i => .error (errs i)) n made =
        (.error (errs (made + n - 1)), made + n,
         (List.range (n - 1)).map
           (fun k => backoffDelay baseDelay maxDelay (made + k) (jitters (made + k)))) := by
  intro n
  induction n with
  | zero => intro made h; omega
  | succ m ih =>
      intro made _
      cases m with
      | zero =>
          simp [retryPolicyGo, hr]
      | succ m' =>
          have hm : 1 ≤ m' + 1 := by omega
          rw [retryPolicyGo]
          simp only [hr, Bool.true_and, Nat.add_eq_zero, ne_eq, Nat.succ_ne_zero,
            not_false_eq_true, if_pos, bne_iff_ne]
          rw [ih (made + 1) hm]
          simp only [Prod.mk.injEq, Except.error.injEq, Nat.add_sub_cancel]
          refine ⟨by congr 1; omega, by omega, ?_⟩
          rw [List.range_succ_eq_map, List.map_cons, List.map_map]
          simp only [List.cons.injEq]
          refine ⟨by simp, ?_⟩
          apply List.map_congr_left
          intro k _
          have hk : made + 1 + k = made + (k + 1) := by omega
          simp [Function.comp, hk]

/-- C7 (amended): an operation that always fails with a retryable error is
attempted exactly `maxAttempts` times, the last error is surfaced, and the
sleep before the retry with index `i` is `min(baseDelay*2^i, maxDelay)`
plus the drawn jitter.  Each delay is bounded by `1.25 * maxDelay` (not by
`maxDelay`: the jitter is added on top of the cap), the jitter-free parts
are non-decreasing, and with the default parameters (`maxAttempts = 3`,
`baseDelay = 2`, `maxDelay = 10`) the two realized delays are
non-decreasing and at most `maxDelay`. -/
theorem C7_retry_exhaustion_amended :
    (∀ (maxAttempts : ℕ), 1 ≤ maxAttempts →
      ∀ (baseDelay maxDelay : ℚ) (jitters : ℕ → ℚ) (errs : ℕ → PipelineError)
        (retryable : PipelineError → Bool), (∀ i, retryable (errs i) = true) →
        (retryPolicyRun (α := Unit) maxAttempts baseDelay maxDelay jitters retryable
            (fun i => .error (errs i))).2.1 = maxAttempts ∧
        (retryPolicyRun (α := Unit) maxAttempts baseDelay maxDelay jitters retryable
            (fun i => .error (errs i))).1 = .error (errs (maxAttempts - 1)) ∧
        (retryPolicyRun (α := Unit) maxAttempts baseDelay maxDelay jitters retryable
            (fun i => .error (errs i))).2.2 =
          (List.range (maxAttempts - 1)).map
            (fun i => backoffDelay baseDelay maxDelay i (jitters i)))
    ∧ (∀ (baseDelay maxDelay : ℚ) (i : ℕ) (j : ℚ), 0 ≤ maxDelay →
        jitterInRange baseDelay maxDelay i j →
        backoffDelay baseDelay maxDelay i j ≤ (5 / 4) * maxDelay)
    ∧ (∀ (baseDelay maxDelay : ℚ) (i : ℕ), 0 ≤ baseDelay →
        min (baseDelay * 2 ^ i) maxDelay ≤ min (baseDelay * 2 ^ (i + 1)) maxDelay)
    ∧ (∀ (j0 j1 : ℚ), jitterInRange 2 10 0 j0 → jitterInRange 2 10 1 j1 →
        backoffDelay 2 10 0 j0 ≤ backoffDelay 2 10 1 j1 ∧
        backoffDelay 2 10 0 j0 ≤ 10 ∧ backoffDelay 2 10 1 j1 ≤ 10) := by
  refine ⟨?_, ?_, ?_, ?_⟩
  · intro maxAttempts h1 baseDelay maxDelay jitters errs retryable hr
    have h := retryPolicyGo_always_fails baseDelay maxDelay jitters retryable errs hr
      maxAttempts 0 h1
    rw [retryPolicyRun, h]
    refine ⟨by simp, by simp, by simp⟩
  · intro baseDelay maxDelay i j hM ⟨hj0, hj1⟩
    have h1 : min (baseDelay * 2 ^ i) maxDelay ≤ maxDelay := min_le_right _ _
    simp only [backoffDelay]
    linarith
  · intro baseDelay maxDelay i hb
    apply min_le_min _ le_rfl
    have : (2 : ℚ) ^ i ≤ 2 ^ (i + 1) := by
      apply pow_le_pow_right₀ (by norm_num) (by omega)
    nlinarith
  · intro j0 j1 ⟨h00, h01⟩ ⟨h10, h11⟩
    simp only [backoffDelay] at *
    norm_num at h01 h11 ⊢
    refine ⟨by linarith, by linarith, by linarith⟩

/-- C7 counterexample: with `baseDelay = 2`, `maxDelay = 2`,
`maxAttempts = 4` and jitters 1/2 and 0 — both inside the claim's
`[0, delay*0.25]` range — the realized delay sequence is `[5/2, 2, 2]`:
its first element exceeds `maxDelay` and the sequence decreases, refuting
the claim's "non-decreasing and capped at maxDelay". -/
theorem C7_delay_cap_counterexample :
    (retryPolicyRun (α := Unit) 4 2 2 (fun i => if i = 0 then 1/2 else 0)
        retryIfExceptionType (fun _ => .error .requestError)).2.2 = [5/2, 2, 2]
    ∧ jitterInRange 2 2 0 (1/2) ∧ jitterInRange 2 2 1 0
    ∧ ¬((5 : ℚ)/2 ≤ 2) := by
  refine ⟨?_, ?_, ?_, by norm_num⟩
  · norm_num [retryPolicyRun, retryPolicyGo, retryIfExceptionType, backoffDelay]
  · constructor <;> norm_num [jitterInRange]
  · constructor <;> norm_num [jitterInRange]

/-- C7 witness: the exhaustion part of the amended claim at the default
parameters with zero jitter. -/
theorem C7_retry_exhaustion_amended_witness :
    (retryPolicyRun (α := Unit) 3 2 10 (fun _ => 0) retryIfExceptionType
        (fun _ => .error .requestError)).2.1 = 3 ∧
    (retryPolicyRun (α := Unit) 3 2 10 (fun _ => 0) retryIfExceptionType
        (fun _ => .error .requestError)).1 = .error .requestError ∧
    (retryPolicyRun (α := Unit) 3 2 10 (fun _ => 0) retryIfExceptionType
        (fun _ => .error .requestError)).2.2 =
      (List.range 2).map (fun i => backoffDelay 2 10 i 0) :=
  C7_retry_exhaustion_amended.1 3 (by norm_num) 2 10 (fun _ => 0) (fun _ => .requestError)
    retryIfExceptionType (fun _ => rfl)

/-- The rejected counter of a normalization run counts exactly the raw
payloads that fail validation (duplicates collapse without being
counted). -/
theorem normalizeBatch_rejected_count (raws : List RawSwap) :
    (normalizeBatch raws).2 = raws.countP (fun r => (validateRaw r).isNone) := by
  suffices h : ∀ (l : List RawSwap) (acc : List SwapRecord × ℕ),
      (l.foldl (fun acc r =>
        match validateRaw r with
        | some rec =>
            if acc.1.any (fun k => k.txHash = rec.txHash) then acc
            else (acc.1 ++ [rec], acc.2)
        | none => (acc.1, acc.2 + 1)) acc).2 = acc.2 + l.countP (fun r => (validateRaw r).isNone) by
    simpa [normalizeBatch] using h raws ([], 0)
  intro l
  induction l with
  | nil => intro acc; simp
  | cons r rest ih =>
      intro acc
      rw [List.foldl_cons]
      cases hv : validateRaw r with
      | none =>
          simp only [hv]
          rw [ih]
          simp [List.countP_cons, hv]
          omega
      | some rec =>
          simp only [hv]
          by_cases hdup : (acc.1.any fun k => k.txHash = rec.txHash) = true
          · rw [if_pos hdup, ih]
            simp [List.countP_cons, hv]
          · rw [if_neg hdup, ih]
            simp [List.countP_cons, hv]

/-- C8 (amended): the normalizer retains every raw payload whose fields
are present, whose txHash is present, whose blockNumber parses as a
non-negative integer, whose token addresses are non-empty and whose two
amounts parse as integers — signs preserved, so a negative amount alone
never causes a drop; a payload is dropped exactly when its txHash is
missing, a token address is missing or empty, an amount is missing or
unparseable, or the blockNumber does not parse as a non-negative integer;
and the rejected counter counts exactly the dropped payloads (the
normalizer is a total function — no fatal error). -/
theorem C8_normalizer_amended :
    (∀ (r : RawSwap) (tx bn t0 t1 a0 a1 : String) (bnv : ℕ) (a0v a1v : ℤ),
        r.txHash = some tx → r.blockNumber = some bn → parseNat? bn = some bnv →
        r.token0Address = some t0 → t0.isEmpty = false →
        r.token1Address = some t1 → t1.isEmpty = false →
        r.amount0Raw = some a0 → parseInt? a0 = some a0v →
        r.amount1Raw = some a1 → parseInt? a1 = some a1v →
        validateRaw r = some
          { txHash := tx, blockNumber := bnv,
            timestamp := ((r.timestamp.bind parseNat?).getD 0),
            token0Address := t0, token1Address := t1,
            amount0Raw := a0v, amount1Raw := a1v })
    ∧ (∀ (r : RawSwap),
        validateRaw r = none ↔
          r.txHash = none
          ∨ ((r.token0Address.map String.isEmpty).getD true) = true
          ∨ ((r.token1Address.map String.isEmpty).getD true) = true
          ∨ r.amount0Raw.bind parseInt? = none
          ∨ r.amount1Raw.bind parseInt? = none
          ∨ r.blockNumber.bind parseNat? = none)
    ∧ (∀ (raws : List RawSwap),
        (normalizeBatch raws).2 = raws.countP (fun r => (validateRaw r).isNone)) := by
  refine ⟨?_, ?_, normalizeBatch_rejected_count⟩
  · intro r tx bn t0 t1 a0 a1 bnv a0v a1v h1 h2 h3 h4 h5 h6 h7 h8 h9 h10 h11
    simp [validateRaw, h1, h2, h3, h4, h5, h6, h7, h8, h9, h10, h11]
  · intro r
    obtain ⟨tx, bn, ts, t0, t1, a0, a1⟩ := r
    cases tx <;> cases bn <;> cases t0 <;> cases t1 <;> cases a0 <;> cases a1 <;>
      simp [validateRaw]
    case some.some.some.some.some.some tx bn t0 t1 a0 a1 =>
      cases hbn : parseNat? bn <;> cases ha0 : parseInt? a0 <;> cases ha1 : parseInt? a1 <;>
        by_cases h0 : t0.isEmpty <;> by_cases h1 : t1.isEmpty <;>
          simp [hbn, ha0, ha1, h0, h1]

/-- C8 counterexample: a raw payload whose txHash is missing is dropped
and counted as rejected even though its token addresses are present and
non-empty, both amounts parse (one of them negative), and its blockNumber
parses — none of the claim's enumerated drop causes applies. -/
theorem C8_missing_txHash_counterexample :
    validateRaw wRawNoTx = none
    ∧ normalizeBatch [wRawNoTx] = ([], 1)
    ∧ wRawNoTx.token0Address = some "0xt0"
    ∧ "0xt0".isEmpty = false
    ∧ wRawNoTx.token1Address = some "0xt1"
    ∧ "0xt1".isEmpty = false
    ∧ wRawNoTx.amount0Raw.bind parseInt? = some 25
    ∧ wRawNoTx.amount1Raw.bind parseInt? = some (-40)
    ∧ wRawNoTx.blockNumber.bind parseNat? = some 7 := by
  refine ⟨rfl, rfl, rfl, rfl, rfl, rfl, rfl, rfl, rfl⟩

/-- C8 witness: the retention part of the amended claim applied to the
fully well-formed payload `wRawGood`, whose negative amount1 of -40 is
preserved with its sign. -/
theorem C8_normalizer_amended_witness :
    validateRaw wRawGood = some
      { txHash := "0xg1", blockNumber := 7,
        timestamp := ((wRawGood.timestamp.bind parseNat?).getD 0),
        token0Address := "0xt0", token1Address := "0xt1",
        amount0Raw := 25, amount1Raw := -40 } :=
  C8_normalizer_amended.1 wRawGood "0xg1" "7" "0xt0" "0xt1" "25" "-40" 7 25 (-40)
    rfl rfl rfl rfl rfl rfl rfl rfl rfl rfl rfl

/-- The overflow threshold is positive. -/
theorem JSNum.ovf_pos : (0 : ℚ) < JSNum.ovf := by
  rw [JSNum.ovf]; positivity

/-- The `x <= 0` guard is false on a positive finite number. -/
theorem JSNum.le0_fin_false {q : ℚ} (h : 0 < q) : (JSNum.fin q).le0 = false := by
  simp [JSNum.le0, not_le.mpr h]

/-- Multiplication of finite numbers is exact below the overflow
threshold. -/
theorem JSNum.mul_fin_fin {a b : ℚ} (h : |a * b| < JSNum.ovf) :
    (JSNum.fin a).mul (.fin b) = .fin (a * b) := by
  rw [abs_lt] at h
  simp [JSNum.mul, not_le.mpr h.2, not_le.mpr (by linarith [h.1] : -JSNum.ovf < a * b)]

/-- Subtraction of finite numbers is exact below the overflow
threshold. -/
theorem JSNum.sub_fin_fin {a b : ℚ} (h : |a - b| < JSNum.ovf) :
    (JSNum.fin a).sub (.fin b) = .fin (a - b) := by
  rw [abs_lt] at h
  simp [JSNum.sub, not_le.mpr h.2, not_le.mpr (by linarith [h.1] : -JSNum.ovf < a - b)]

/-- Division of finite numbers is exact below the overflow threshold. -/
theorem JSNum.div_fin_fin {a b : ℚ} (hb : b ≠ 0) (h : |a / b| < JSNum.ovf) :
    (JSNum.fin a).div (.fin b) = .fin (a / b) := by
  rw [abs_lt] at h
  simp [JSNum.div, hb, not_le.mpr h.2, not_le.mpr (by linarith [h.1] : -JSNum.ovf < a / b)]

/-- Swapping the operands of a finite subtraction negates the result,
including through overflow. -/
theorem JSNum.neg_sub_fin (a b : ℚ) :
    (JSNum.fin a).sub (.fin b) = ((JSNum.fin b).sub (.fin a)).neg := by
  have hovf := JSNum.ovf_pos
  simp only [JSNum.sub]
  split_ifs <;> simp only [JSNum.neg, JSNum.fin.injEq] <;> first | rfl | linarith

/-- Negation commutes with multiplication, including through the special
values and overflow. -/
theorem JSNum.neg_mul_left (x y : JSNum) : (x.neg).mul y = (x.mul y).neg := by
  have hovf := JSNum.ovf_pos
  cases x <;> cases y <;>
    first
      | rfl
      | (simp only [JSNum.neg, JSNum.mul, neg_mul]
         split_ifs <;> (try simp only [JSNum.neg, JSNum.fin.injEq]) <;>
           first | rfl | linarith)

/-- Negation of the dividend commutes with division, including through
the special values and overflow. -/
theorem JSNum.neg_div_left (x y : JSNum) : (x.neg).div y = (x.div y).neg := by
  have hovf := JSNum.ovf_pos
  cases x <;> cases y <;>
    first
      | rfl
      | (simp only [JSNum.neg, JSNum.div, neg_div]
         split_ifs <;> (try simp only [JSNum.neg, JSNum.fin.injEq]) <;>
           first | rfl | linarith)

/-- Rounding to two decimals is antisymmetric, as ECMAScript `toFixed`
is. -/
theorem JSNum.round2Rat_neg (q : ℚ) : JSNum.round2Rat (-q) = -JSNum.round2Rat q := by
  rcases lt_trichotomy q 0 with h | rfl | h
  · rw [JSNum.round2Rat, JSNum.round2Rat, if_neg (by linarith : ¬(-q < 0)), if_pos h]
    ring_nf
  · norm_num [JSNum.round2Rat]
  · rw [JSNum.round2Rat, JSNum.round2Rat, if_pos (by linarith : -q < 0), if_neg (by linarith : ¬(q < 0))]
    rw [neg_neg]
    ring

/-- `parseFloat(x.toFixed(2))` commutes with negation. -/
theorem JSNum.toFixed2_neg (x : JSNum) : (x.neg).toFixed2 = x.toFixed2.neg := by
  cases x <;> simp [JSNum.toFixed2, JSNum.neg, JSNum.round2Rat_neg]

/-- On finite inputs passing all three guards, `calculatePnLWithSide`
reaches its computation branch and returns the rounded entry/current
values and side-dependent P&L. -/
theorem calculatePnLWithSide_pos (e c s l : ℚ) (he : 0 < e) (hc : 0 < c)
    (hl : 0 < l) (hs : s ≠ 0) (side : PositionSide) :
    calculatePnLWithSide (.fin e) (.fin c) (.fin s) side (.fin l) =
      { absolute := ((match side with
          | .long => (((JSNum.fin c).sub (.fin e)).mul (JSNum.fin s).jabs).mul (.fin l)
          | .short => (((JSNum.fin e).sub (.fin c)).mul (JSNum.fin s).jabs).mul (.fin l))).toFixed2
        percentage := (((match side with
          | .long => (((JSNum.fin c).sub (.fin e)).mul (JSNum.fin s).jabs).mul (.fin l)
          | .short => (((JSNum.fin e).sub (.fin c)).mul (JSNum.fin s).jabs).mul (.fin l))).div
            ((JSNum.fin e).mul (JSNum.fin s).jabs)).mul (.fin 100) |>.toFixed2
        entryValue := ((JSNum.fin e).mul (JSNum.fin s).jabs).toFixed2
        currentValue := ((JSNum.fin c).mul (JSNum.fin s).jabs).toFixed2 } := by
  simp only [calculatePnLWithSide, JSNum.isFinite, JSNum.le0_fin_false he,
    JSNum.le0_fin_false hc, JSNum.le0_fin_false hl]
  simp [hs]

/-- C10: for every finite entryPrice > 0, currentPrice > 0, leverage > 0
and size ≠ 0, the long and short runs agree on entryValue and
currentValue, and their absolute and percentage P&L are exact negations
of each other (also through overflow, where a signed infinity negates to
the opposite infinity). -/
theorem C10_long_short_antisymmetry :
    ∀ (e c s l : ℚ), 0 < e → 0 < c → 0 < l → s ≠ 0 →
      (calculatePnLWithSide (.fin e) (.fin c) (.fin s) .long (.fin l)).entryValue =
        (calculatePnLWithSide (.fin e) (.fin c) (.fin s) .short (.fin l)).entryValue ∧
      (calculatePnLWithSide (.fin e) (.fin c) (.fin s) .long (.fin l)).currentValue =
        (calculatePnLWithSide (.fin e) (.fin c) (.fin s) .short (.fin l)).currentValue ∧
      (calculatePnLWithSide (.fin e) (.fin c) (.fin s) .short (.fin l)).absolute =
        (calculatePnLWithSide (.fin e) (.fin c) (.fin s) .long (.fin l)).absolute.neg ∧
      (calculatePnLWithSide (.fin e) (.fin c) (.fin s) .short (.fin l)).percentage =
        (calculatePnLWithSide (.fin e) (.fin c) (.fin s) .long (.fin l)).percentage.neg := by
  intro e c s l he hc hl hs
  rw [calculatePnLWithSide_pos e c s l he hc hl hs .long,
      calculatePnLWithSide_pos e c s l he hc hl hs .short]
  refine ⟨rfl, rfl, ?_, ?_⟩
  · show ((((JSNum.fin e).sub (.fin c)).mul (JSNum.fin s).jabs).mul (.fin l)).toFixed2 = _
    rw [JSNum.neg_sub_fin e c, JSNum.neg_mul_left, JSNum.neg_mul_left, JSNum.toFixed2_neg]
  · show ((((((JSNum.fin e).sub (.fin c)).mul (JSNum.fin s).jabs).mul (.fin l)).div
      ((JSNum.fin e).mul (JSNum.fin s).jabs)).mul (.fin 100)).toFixed2 = _
    rw [JSNum.neg_sub_fin e c, JSNum.neg_mul_left, JSNum.neg_mul_left, JSNum.neg_div_left,
        JSNum.neg_mul_left, JSNum.toFixed2_neg]

/-- C10 witness: the antisymmetry at entry 100, current 110, size 2,
leverage 3. -/
theorem C10_long_short_antisymmetry_witness :
    (calculatePnLWithSide (.fin 100) (.fin 110) (.fin 2) .long (.fin 3)).entryValue =
      (calculatePnLWithSide (.fin 100) (.fin 110) (.fin 2) .short (.fin 3)).entryValue ∧
    (calculatePnLWithSide (.fin 100) (.fin 110) (.fin 2) .long (.fin 3)).currentValue =
      (calculatePnLWithSide (.fin 100) (.fin 110) (.fin 2) .short (.fin 3)).currentValue ∧
    (calculatePnLWithSide (.fin 100) (.fin 110) (.fin 2) .short (.fin 3)).absolute =
      (calculatePnLWithSide (.fin 100) (.fin 110) (.fin 2) .long (.fin 3)).absolute.neg ∧
    (calculatePnLWithSide (.fin 100) (.fin 110) (.fin 2) .short (.fin 3)).percentage =
      (calculatePnLWithSide (.fin 100) (.fin 110) (.fin 2) .long (.fin 3)).percentage.neg :=
  C10_long_short_antisymmetry 100 110 2 3 (by norm_num) (by norm_num) (by norm_num) (by norm_num)

/-- C9 counterexample: at entryPrice = currentPrice = size = 2^512 — all
finite and positive, so every guard passes — the computed entry value
2^1024 overflows the double range and the returned `entryValue` is
Infinity, refuting the claim's assertion that all four fields are finite for
every input. -/
theorem C9_overflow_counterexample :
    ((calculatePnLWithSide (.fin (2^512)) (.fin (2^512)) (.fin (2^512)) .long
        (.fin 1)).entryValue).isFinite = false
    ∧ (JSNum.fin ((2:ℚ)^512)).isFinite = true ∧ (0:ℚ) < 2^512 := by
  refine ⟨?_, rfl, by positivity⟩
  rw [calculatePnLWithSide_pos (2^512) (2^512) (2^512) 1 (by positivity) (by positivity)
    (by positivity) (by positivity) .long]
  have hjabs : (JSNum.fin ((2:ℚ)^512)).jabs = .fin (2^512) := by
    simp [JSNum.jabs, abs_of_nonneg (by positivity : (0:ℚ) ≤ 2^512)]
  have hmul : (JSNum.fin ((2:ℚ)^512)).mul (.fin (2^512)) = .inf := by
    simp only [JSNum.mul]
    rw [if_pos]
    rw [JSNum.ovf, ← pow_add]
  simp [hjabs, hmul, JSNum.toFixed2, JSNum.isFinite]

set_option maxRecDepth 4000 in
/-- C9 (amended): every call in which some input is NaN or infinite, or
entryPrice ≤ 0, currentPrice ≤ 0, leverage ≤ 0, or size = 0, returns the
all-zero result; and on guard-passing inputs all four returned fields are
finite provided the exact intermediate products and the scaled quotient
stay below the double overflow threshold `2^1024`. -/
theorem C9_guards_and_finiteness_amended :
    (∀ (x y z w : JSNum) (side : PositionSide),
        (x.isFinite && y.isFinite && z.isFinite && w.isFinite) = false ∨
        x.le0 = true ∨ y.le0 = true ∨ w.le0 = true ∨ z = .fin 0 →
        calculatePnLWithSide x y z side w = zeroPnLResult)
    ∧ (∀ (e c s l : ℚ) (side : PositionSide), 0 < e → 0 < c → 0 < l → s ≠ 0 →
        |c - e| < JSNum.ovf → |c - e| * |s| < JSNum.ovf → |c - e| * |s| * l < JSNum.ovf →
        e * |s| < JSNum.ovf → c * |s| < JSNum.ovf →
        (|c - e| * l / e) * 100 < JSNum.ovf →
        ((calculatePnLWithSide (.fin e) (.fin c) (.fin s) side (.fin l)).absolute.isFinite = true ∧
         (calculatePnLWithSide (.fin e) (.fin c) (.fin s) side (.fin l)).percentage.isFinite = true ∧
         (calculatePnLWithSide (.fin e) (.fin c) (.fin s) side (.fin l)).entryValue.isFinite = true ∧
         (calculatePnLWithSide (.fin e) (.fin c) (.fin s) side (.fin l)).currentValue.isFinite = true)) := by
  constructor
  · intro x y z w side h
    unfold calculatePnLWithSide
    split_ifs with h1 h2 h3 <;> try rfl
    exfalso
    rcases h with h | h | h | h | h <;> simp_all
  · intro e c s l side he hc hl hs h1 h2 h3 h4 h5 h6
    have hs2 : (0:ℚ) < |s| := abs_pos.mpr hs
    have hb0 : e * |s| ≠ 0 := ne_of_gt (mul_pos he hs2)
    have hjabs : (JSNum.fin s).jabs = .fin |s| := rfl
    have hentry : (JSNum.fin e).mul (.fin |s|) = .fin (e * |s|) :=
      JSNum.mul_fin_fin (by rw [abs_mul, abs_of_pos he, abs_abs]; exact h4)
    have hcurr : (JSNum.fin c).mul (.fin |s|) = .fin (c * |s|) :=
      JSNum.mul_fin_fin (by rw [abs_mul, abs_of_pos hc, abs_abs]; exact h5)
    have hquot : ∀ d : ℚ, |d| = |c - e| →
        |d * |s| * l / (e * |s|)| = |c - e| * l / e := by
      intro d hd
      rw [abs_div, abs_mul, abs_mul, abs_abs, abs_of_pos hl,
        abs_of_pos (mul_pos he hs2), hd]
      field_simp
      ring
    have hqnn : (0:ℚ) ≤ |c - e| * l / e :=
      div_nonneg (mul_nonneg (abs_nonneg _) hl.le) he.le
    have habs : ∀ d : ℚ, |d| = |c - e| →
        ∃ q1 q2 : ℚ,
          (((JSNum.fin d).mul (.fin |s|)).mul (.fin l)) = .fin q1 ∧
          ((JSNum.fin q1).div (.fin (e * |s|))).mul (.fin 100) = .fin q2 := by
      intro d hd
      have hm1 : (JSNum.fin d).mul (.fin |s|) = .fin (d * |s|) :=
        JSNum.mul_fin_fin (by rw [abs_mul, abs_abs, hd]; exact h2)
      have hm2 : (JSNum.fin (d * |s|)).mul (.fin l) = .fin (d * |s| * l) :=
        JSNum.mul_fin_fin (by rw [abs_mul, abs_mul, abs_abs, abs_of_pos hl, hd]; exact h3)
      have hdv : (JSNum.fin (d * |s| * l)).div (.fin (e * |s|)) =
          .fin (d * |s| * l / (e * |s|)) :=
        JSNum.div_fin_fin hb0 (by rw [hquot d hd]; linarith)
      have hm3 : (JSNum.fin (d * |s| * l / (e * |s|))).mul (.fin 100) =
          .fin (d * |s| * l / (e * |s|) * 100) :=
        JSNum.mul_fin_fin (by
          rw [abs_mul, hquot d hd]
          have h100 : |(100:ℚ)| = 100 := by norm_num
          rw [h100]
          linarith)
      exact ⟨d * |s| * l, _, by rw [hm1, hm2], by rw [hdv, hm3]⟩
    have hsubL : (JSNum.fin c).sub (.fin e) = .fin (c - e) := JSNum.sub_fin_fin h1
    have hsubS : (JSNum.fin e).sub (.fin c) = .fin (e - c) :=
      JSNum.sub_fin_fin (by rw [abs_sub_comm]; exact h1)
    rw [calculatePnLWithSide_pos e c s l he hc hl hs side]
    cases side
    · obtain ⟨q1, q2, hq1, hq2⟩ := habs (c - e) rfl
      simp [hjabs, hsubL, hq1, hq2, hentry, hcurr, JSNum.toFixed2, JSNum.isFinite]
    · obtain ⟨q1, q2, hq1, hq2⟩ := habs (e - c) (abs_sub_comm e c)
      simp [hjabs, hsubS, hq1, hq2, hentry, hcurr, JSNum.toFixed2, JSNum.isFinite]

/-- C9 witness: the NaN guard at a concrete input, and finiteness of all
four fields at entry 1, current 2, size 1, leverage 1. -/
theorem C9_guards_and_finiteness_amended_witness :
    (calculatePnLWithSide .nan (.fin 1) (.fin 1) .long (.fin 1) = zeroPnLResult) ∧
    ((calculatePnLWithSide (.fin 1) (.fin 2) (.fin 1) .long (.fin 1)).absolute.isFinite = true ∧
     (calculatePnLWithSide (.fin 1) (.fin 2) (.fin 1) .long (.fin 1)).percentage.isFinite = true ∧
     (calculatePnLWithSide (.fin 1) (.fin 2) (.fin 1) .long (.fin 1)).entryValue.isFinite = true ∧
     (calculatePnLWithSide (.fin 1) (.fin 2) (.fin 1) .long (.fin 1)).currentValue.isFinite = true) := by
  constructor
  · exact C9_guards_and_finiteness_amended.1 .nan (.fin 1) (.fin 1) (.fin 1) .long (Or.inl rfl)
  · refine C9_guards_and_finiteness_amended.2 1 2 1 1 .long (by norm_num) (by norm_num) (by norm_num)
      (by norm_num) ?_ ?_ ?_ ?_ ?_ ?_ <;>
      rw [JSNum.ovf] <;> norm_num
